import Mathlib

/-!
Verification of the `httpparse` Go library.

A shallow embedding of the Go package `httpparse` (file `httpparse.go`),
which provides two operations for consuming HTTP responses:

`RawBody resp requestErr wantStatuses readLimit` returns the raw body
bytes after validating the status code, bounding the read at a limit
(default 30 MiB), and closing the body.

`JSON resp requestErr wantStatuses decode` validates the status code and
decodes the body as JSON into a caller-supplied target; on a status
mismatch it performs a bounded (1 MiB) context read to enrich the error.

The body byte source is modelled as the list of bytes (as characters, since
all messages render bytes as text via `%s`) it can deliver, followed by
either end-of-stream or a read error.  `ioutil.ReadAll` applied to an
`io.LimitedReader{R, N}` is modelled by `limitedReadAll`.  Resource usage
(reads of the byte source, closes of the body, invocations of the JSON
decoder) is tracked explicitly in an `Effects` record, mirroring the
straight-line control flow of the Go source: `defer resp.Body.Close()`
produces exactly one close on every path after it is scheduled, and each
path performs at most one reading pass over the body.
-/

set_option maxRecDepth 100000

namespace Httpparse

/-- A sequential byte source with a close operation (the response body):
it delivers `data` and afterwards either signals end-of-stream
(`readErr = none`) or fails with the given error message. -/
structure Body where
  data : List Char
  readErr : Option String
deriving Repr, DecidableEq

/-- The part of `*http.Response` that the library consumes: the integer
status code and the body byte source. -/
structure Response where
  statusCode : Int
  body : Body
deriving Repr, DecidableEq

/-- Result of `ioutil.ReadAll` applied to `io.LimitedReader{R := b, N := n}`:
the bytes collected, the surfaced error (if any), and the final value of the
reader's `N` field.  The limited reader delivers at most `n` bytes (none
when `n ≤ 0`); the underlying source's terminal condition (EOF or error) is
only observed when fewer than `n` bytes were available. -/
structure ReadResult where
  bytes : List Char
  err : Option String
  remaining : Int
deriving Repr, DecidableEq

def limitedReadAll (b : Body) (n : Int) : ReadResult :=
  if n ≤ 0 then ⟨[], none, n⟩
  else if (b.data.length : Int) < n then ⟨b.data, b.readErr, n - (b.data.length : Int)⟩
  else ⟨b.data.take n.toNat, none, 0⟩

/-- Membership test `contains(xs, y)` from the source. -/
def contains (xs : List Int) (y : Int) : Bool :=
  match xs with
  | [] => false
  | x :: rest => if x == y then true else contains rest y

/-- Rendering of an `[]int` by Go's `%v` verb: space-separated, bracketed. -/
def wantsStr (xs : List Int) : String :=
  "[" ++ String.intercalate " " (xs.map toString) ++ "]"

/-- The status-mismatch message fragment built identically in both
operations: singular when exactly one status was wanted, otherwise the
`one of [...]` form. -/
def statusErrStr (got : Int) (wants : List Int) : String :=
  if wants.length == 1 then
    "got status code " ++ toString got ++ " but wanted " ++ toString (wants.headD 0)
  else
    "got status code " ++ toString got ++ " but wanted one of " ++ wantsStr wants

/-- The default read limit of `RawBody`: `int64(1 << 20 * 30)` = 30 MiB. -/
def defaultLimit : Int := 1 <<< 20 * 30

/-- Resolution of the variadic `readLimit ...int64` parameter: the supplied
limit when present, the 30 MiB default otherwise. -/
def maxBytesOf (readLimit : Option Int) : Int :=
  readLimit.getD defaultLimit

/-- The hard-coded cap of `JSON`'s error-context read: `int64(1 << 20)` = 1 MiB. -/
def jsonMaxBytes : Int := 1 <<< 20

/-- The error returned by `RawBody` when the body exceeded the limit. -/
def tooLargeMsg (maxBytes : Int) : String :=
  "ioutil.ReadAll() is used to read the response body and we limit how much it can read because nothing is infinite. The response body contained more than the limit of " ++ toString maxBytes ++ " bytes. Either increase the limit or parse the response body another way"

/-- Trace of the effects a call performed on its collaborators: reading
passes over the body byte source, close operations on the body, and
invocations of the JSON decoder. -/
structure Effects where
  reads : Nat
  closes : Nat
  decodes : Nat
deriving Repr, DecidableEq

/-- The pair returned by `RawBody`, Go's `(body []byte, err error)`
(`none` for `body` models Go's `nil`), plus the effect trace. -/
structure RawResult where
  body : Option (List Char)
  err : Option String
  effects : Effects
deriving Repr, DecidableEq

/-- Continuation of `RawBody` after `body, err = ioutil.ReadAll(limitedReader)`
returned `r`: the read-error check, the cap-exceeded check
(`limitedReader.N <= 0`), the status check, and the success return. -/
def rawAfterRead (status : Int) (wants : List Int) (maxBytes : Int) (r : ReadResult) : RawResult :=
  match r.err with
  | some e => ⟨none, some ("reading response body: " ++ e), ⟨1, 1, 0⟩⟩
  | none =>
    if r.remaining ≤ 0 then
      ⟨none, some (tooLargeMsg maxBytes), ⟨1, 1, 0⟩⟩
    else if ¬ contains wants status then
      ⟨none, some (statusErrStr status wants ++ (", body: " ++ String.mk r.bytes)), ⟨1, 1, 0⟩⟩
    else
      ⟨some r.bytes, none, ⟨1, 1, 0⟩⟩

/-- Embedding of `RawBody(resp, requestErr, wantStatuses, readLimit...)`.
The variadic `readLimit` is an `Option Int` (`none` = not supplied). -/
def RawBody (resp : Response) (requestErr : Option String) (wantStatuses : List Int)
    (readLimit : Option Int) : RawResult :=
  match requestErr with
  | some e => ⟨none, some ("sending request: " ++ e), ⟨0, 0, 0⟩⟩
  | none =>
    rawAfterRead resp.statusCode wantStatuses (maxBytesOf readLimit)
      (limitedReadAll resp.body (maxBytesOf readLimit + 1))

/-- Outcome of the external JSON decoder (`json.NewDecoder(...).Decode(v)`),
treated as an opaque capability: the value it wrote into the target (if
any) and the error it reported (if any). -/
structure DecodeOutcome (α : Type) where
  written : Option α
  err : Option String
deriving Repr, DecidableEq

/-- The outcome of `JSON`: the returned error, the value now stored in the
caller's target (`none` = target untouched), and the effect trace. -/
structure JSONResult (α : Type) where
  err : Option String
  written : Option α
  effects : Effects
deriving Repr, DecidableEq

/-- Error built on `JSON`'s status-mismatch path from the mismatch fragment
`errS` and the outcome `r` of the bounded 1 MiB context read. -/
def jsonMismatchErr (errS : String) (r : ReadResult) : String :=
  match r.err with
  | some readErr =>
    errS ++ (", also an error occurred when reading the response body: " ++ readErr)
  | none =>
    if r.remaining ≤ 0 then
      errS ++ (", the first " ++ (toString jsonMaxBytes
        ++ (" bytes of the response body are: " ++ String.mk r.bytes)))
    else
      errS ++ (", body: " ++ String.mk r.bytes)

/-- Embedding of `JSON(resp, requestErr, wantStatuses, v)` with the decoding
of the body stream into `v` abstracted as the function `decode`. -/
def JSON {α : Type} (resp : Response) (requestErr : Option String)
    (wantStatuses : List Int) (decode : Body → DecodeOutcome α) : JSONResult α :=
  match requestErr with
  | some e => ⟨some ("sending request: " ++ e), none, ⟨0, 0, 0⟩⟩
  | none =>
    if ¬ contains wantStatuses resp.statusCode then
      ⟨some (jsonMismatchErr (statusErrStr resp.statusCode wantStatuses)
          (limitedReadAll resp.body (jsonMaxBytes + 1))), none, ⟨1, 1, 0⟩⟩
    else
      match (decode resp.body).err with
      | some e => ⟨some ("unmarshalling response body: " ++ e), (decode resp.body).written, ⟨1, 1, 1⟩⟩
      | none => ⟨none, (decode resp.body).written, ⟨1, 1, 1⟩⟩

/-- A decoder that never writes and never fails, used to instantiate
theorems at concrete inputs. -/
def trivialDecode : Body → DecodeOutcome Unit := fun _ => ⟨none, none⟩

-- Sanity checks against the repository's own test cases.

example :
    RawBody ⟨999, ⟨"woa there".data, none⟩⟩ none [200] none
      = ⟨none, some "got status code 999 but wanted 200, body: woa there", ⟨1, 1, 0⟩⟩ := by
  decide

example :
    RawBody ⟨999, ⟨"woa there".data, none⟩⟩ none [200, 888] none
      = ⟨none, some "got status code 999 but wanted one of [200 888], body: woa there",
          ⟨1, 1, 0⟩⟩ := by
  decide

example :
    RawBody ⟨400, ⟨"a reeaaaallllly loooooooong responnnnnnssssseeeeee bodyyyyyyyy".data, none⟩⟩
        none [400] (some 19)
      = ⟨none, some (tooLargeMsg 19), ⟨1, 1, 0⟩⟩ := by
  decide

example :
    RawBody ⟨400, ⟨"hello there buddy".data, none⟩⟩ none [400] none
      = ⟨some "hello there buddy".data, none, ⟨1, 1, 0⟩⟩ := by
  decide

example :
    RawBody ⟨0, ⟨[], some "some read err"⟩⟩ none [] none
      = ⟨none, some "reading response body: some read err", ⟨1, 1, 0⟩⟩ := by
  decide

example :
    (JSON ⟨999, ⟨[], some "some read err"⟩⟩ none [200] trivialDecode).err
      = some "got status code 999 but wanted 200, also an error occurred when reading the response body: some read err" := by
  decide

-- Helper lemmas about the bounded read.

lemma limitedReadAll_nonpos (b : Body) (n : Int) (h : n ≤ 0) :
    limitedReadAll b n = ⟨[], none, n⟩ := by
  unfold limitedReadAll
  rw [if_pos h]

lemma limitedReadAll_within (b : Body) (n : Int) (h : (b.data.length : Int) < n) :
    limitedReadAll b n = ⟨b.data, b.readErr, n - (b.data.length : Int)⟩ := by
  unfold limitedReadAll
  rw [if_neg (by omega), if_pos h]

lemma limitedReadAll_capped (b : Body) (n : Int) (h0 : 0 < n)
    (h : n ≤ (b.data.length : Int)) :
    limitedReadAll b n = ⟨b.data.take n.toNat, none, 0⟩ := by
  unfold limitedReadAll
  rw [if_neg (by omega), if_neg (by omega)]

-- Branch lemmas for RawBody.

lemma rawBody_none_eq (resp : Response) (wants : List Int) (readLimit : Option Int) :
    RawBody resp none wants readLimit
      = rawAfterRead resp.statusCode wants (maxBytesOf readLimit)
          (limitedReadAll resp.body (maxBytesOf readLimit + 1)) := rfl

lemma rawBody_eq_too_large (resp : Response) (wants : List Int) (readLimit : Option Int)
    (hlen : maxBytesOf readLimit < (resp.body.data.length : Int)) :
    RawBody resp none wants readLimit
      = ⟨none, some (tooLargeMsg (maxBytesOf readLimit)), ⟨1, 1, 0⟩⟩ := by
  rw [rawBody_none_eq]
  rcases le_or_lt (maxBytesOf readLimit + 1) 0 with hn | hn
  · rw [limitedReadAll_nonpos _ _ hn]
    simp only [rawAfterRead]
    rw [if_pos hn]
  · rw [limitedReadAll_capped _ _ hn (by omega)]
    simp only [rawAfterRead]
    rw [if_pos le_rfl]

lemma rawBody_eq_read_err (resp : Response) (wants : List Int) (readLimit : Option Int)
    (e : String) (herr : resp.body.readErr = some e)
    (hlen : (resp.body.data.length : Int) < maxBytesOf readLimit + 1) :
    RawBody resp none wants readLimit
      = ⟨none, some ("reading response body: " ++ e), ⟨1, 1, 0⟩⟩ := by
  rw [rawBody_none_eq, limitedReadAll_within _ _ hlen, herr]
  rfl

lemma rawBody_eq_of_read_ok (resp : Response) (wants : List Int) (readLimit : Option Int)
    (hread : resp.body.readErr = none)
    (hlen : (resp.body.data.length : Int) ≤ maxBytesOf readLimit) :
    RawBody resp none wants readLimit
      = if contains wants resp.statusCode then
          ⟨some resp.body.data, none, ⟨1, 1, 0⟩⟩
        else
          ⟨none, some (statusErrStr resp.statusCode wants
              ++ (", body: " ++ String.mk resp.body.data)), ⟨1, 1, 0⟩⟩ := by
  rw [rawBody_none_eq, limitedReadAll_within _ _ (by omega), hread]
  simp only [rawAfterRead]
  rw [if_neg (by omega)]
  by_cases h : contains wants resp.statusCode
  · rw [if_neg (by simp [h]), if_pos h]
  · rw [if_pos (by simp [h]), if_neg h]

lemma rawBody_remaining_pos (resp : Response) (readLimit : Option Int)
    (hlen : (resp.body.data.length : Int) ≤ maxBytesOf readLimit) :
    ¬ (limitedReadAll resp.body (maxBytesOf readLimit + 1)).remaining ≤ 0 := by
  rw [limitedReadAll_within _ _ (by omega)]
  simp only []
  omega

-- Branch lemmas for JSON.

lemma json_mismatch_eq {α : Type} (resp : Response) (wants : List Int)
    (decode : Body → DecodeOutcome α)
    (hmem : contains wants resp.statusCode = false) :
    JSON resp none wants decode
      = ⟨some (jsonMismatchErr (statusErrStr resp.statusCode wants)
            (limitedReadAll resp.body (jsonMaxBytes + 1))), none, ⟨1, 1, 0⟩⟩ := by
  unfold JSON
  rw [if_pos (by simp [hmem])]

lemma jsonMismatchErr_prefix (errS : String) (r : ReadResult) :
    ∃ s, jsonMismatchErr errS r = errS ++ s := by
  rcases r with ⟨bts, e, rem⟩
  cases e
  · unfold jsonMismatchErr
    by_cases h : (rem : Int) ≤ 0
    · exact ⟨_, by rw [if_pos h]⟩
    · exact ⟨_, by rw [if_neg h]⟩
  · exact ⟨_, rfl⟩

lemma json_mismatch_read_err_eq {α : Type} (resp : Response) (wants : List Int)
    (decode : Body → DecodeOutcome α) (e : String)
    (hmem : contains wants resp.statusCode = false)
    (herr : resp.body.readErr = some e)
    (hlen : (resp.body.data.length : Int) < jsonMaxBytes + 1) :
    JSON resp none wants decode
      = ⟨some (statusErrStr resp.statusCode wants
          ++ (", also an error occurred when reading the response body: " ++ e)),
          none, ⟨1, 1, 0⟩⟩ := by
  rw [json_mismatch_eq _ _ _ hmem, limitedReadAll_within _ _ hlen, herr]
  rfl

lemma json_mismatch_full_eq {α : Type} (resp : Response) (wants : List Int)
    (decode : Body → DecodeOutcome α)
    (hmem : contains wants resp.statusCode = false)
    (hread : resp.body.readErr = none)
    (hlen : (resp.body.data.length : Int) ≤ jsonMaxBytes) :
    JSON resp none wants decode
      = ⟨some (statusErrStr resp.statusCode wants
          ++ (", body: " ++ String.mk resp.body.data)), none, ⟨1, 1, 0⟩⟩ := by
  rw [json_mismatch_eq _ _ _ hmem, limitedReadAll_within _ _ (by omega), hread]
  simp only [jsonMismatchErr]
  rw [if_neg (by omega)]

lemma json_mismatch_capped_eq {α : Type} (resp : Response) (wants : List Int)
    (decode : Body → DecodeOutcome α)
    (hmem : contains wants resp.statusCode = false)
    (hlen : jsonMaxBytes < (resp.body.data.length : Int)) :
    JSON resp none wants decode
      = ⟨some (statusErrStr resp.statusCode wants
          ++ (", the first " ++ (toString jsonMaxBytes
          ++ (" bytes of the response body are: "
          ++ String.mk (resp.body.data.take (jsonMaxBytes + 1).toNat))))),
          none, ⟨1, 1, 0⟩⟩ := by
  rw [json_mismatch_eq _ _ _ hmem, limitedReadAll_capped _ _ (by decide) (by omega)]
  simp only [jsonMismatchErr]
  rw [if_pos le_rfl]

-- Lemmas on the status-mismatch message format.

lemma statusErrStr_singleton (got w : Int) :
    statusErrStr got [w]
      = "got status code " ++ toString got ++ " but wanted " ++ toString w := rfl

lemma statusErrStr_plural (got : Int) (wants : List Int) (h : wants.length ≠ 1) :
    statusErrStr got wants
      = "got status code " ++ toString got ++ " but wanted one of " ++ wantsStr wants := by
  unfold statusErrStr
  rw [if_neg (by simp [h])]

lemma statusErrStr_nil (got : Int) :
    statusErrStr got [] = "got status code " ++ toString got ++ " but wanted one of []" := by
  rw [statusErrStr_plural got [] (by decide), String.append_assoc]
  congr 1

-- Lemmas on the effect traces.

lemma rawAfterRead_effects (status : Int) (wants : List Int) (maxBytes : Int) (r : ReadResult) :
    (rawAfterRead status wants maxBytes r).effects = ⟨1, 1, 0⟩ := by
  rcases r with ⟨bts, e, rem⟩
  cases e
  · simp only [rawAfterRead]
    split
    · rfl
    · split <;> rfl
  · rfl

lemma rawAfterRead_mismatch (status : Int) (wants : List Int) (maxBytes : Int) (r : ReadResult)
    (hmem : contains wants status = false) :
    (rawAfterRead status wants maxBytes r).body = none
    ∧ (rawAfterRead status wants maxBytes r).err.isSome = true := by
  rcases r with ⟨bts, e, rem⟩
  cases e
  · simp only [rawAfterRead]
    split
    · exact ⟨rfl, rfl⟩
    · rw [if_pos (by simp [hmem])]
      exact ⟨rfl, rfl⟩
  · exact ⟨rfl, rfl⟩

lemma json_effects {α : Type} (resp : Response) (wants : List Int)
    (decode : Body → DecodeOutcome α) :
    (JSON resp none wants decode).effects.closes = 1
    ∧ (JSON resp none wants decode).effects.reads = 1 := by
  unfold JSON
  cases hc : contains wants resp.statusCode
  · rw [if_pos (by simp [hc])]
    exact ⟨rfl, rfl⟩
  · rw [if_neg (by simp [hc])]
    cases hd : (decode resp.body).err <;> simp [hd]

/-- C6: for every call to `RawBody` or `JSON` with a non-nil `requestErr`,
the operation returns immediately with the error `sending request: <e>`
(nil bytes, untouched output target) and never reads from or closes the
response body (no read, close, or decode effect is performed). -/
theorem request_error_short_circuit {α : Type} (resp : Response) (e : String)
    (wants : List Int) (readLimit : Option Int) (decode : Body → DecodeOutcome α) :
    RawBody resp (some e) wants readLimit
        = ⟨none, some ("sending request: " ++ e), ⟨0, 0, 0⟩⟩
    ∧ JSON resp (some e) wants decode
        = ⟨some ("sending request: " ++ e), none, ⟨0, 0, 0⟩⟩ :=
  ⟨rfl, rfl⟩

/-- C7: for every call to `RawBody` or `JSON` with `requestErr` nil, the
response body is closed exactly once before returning, on every exit path,
and the body byte source is read at most once per call. -/
theorem body_closed_once_read_at_most_once {α : Type} (resp : Response)
    (wants : List Int) (readLimit : Option Int) (decode : Body → DecodeOutcome α) :
    ((RawBody resp none wants readLimit).effects.closes = 1
      ∧ (RawBody resp none wants readLimit).effects.reads ≤ 1)
    ∧ ((JSON resp none wants decode).effects.closes = 1
      ∧ (JSON resp none wants decode).effects.reads ≤ 1) := by
  constructor
  · rw [rawBody_none_eq, rawAfterRead_effects]
    exact ⟨rfl, le_refl 1⟩
  · obtain ⟨h1, h2⟩ := json_effects resp wants decode
    exact ⟨h1, le_of_eq h2⟩

/-- C10: if the caller supplies a negative `readLimit` `L` to `RawBody`
(with `requestErr` nil), the call always returns nil bytes and the
too-large error naming `L`, for every body — even an empty one — because
the limited reader's allowance `L + 1` is non-positive, so zero bytes are
read and the cap-exceeded check fires unconditionally. -/
theorem negative_limit_always_too_large (resp : Response) (wants : List Int)
    (L : Int) (hL : L < 0) :
    RawBody resp none wants (some L) = ⟨none, some (tooLargeMsg L), ⟨1, 1, 0⟩⟩ := by
  rw [rawBody_none_eq]
  have hm : maxBytesOf (some L) = L := rfl
  rw [hm, limitedReadAll_nonpos _ _ (by omega)]
  simp only [rawAfterRead]
  rw [if_pos (show L + 1 ≤ 0 by omega)]

/-- Witness for C10: a negative limit `-1` with a non-empty, healthy body
still produces the too-large error naming `-1` and nil bytes, even though
the status matches. -/
theorem negative_limit_always_too_large_witness :
    (-1 : Int) < 0
    ∧ RawBody ⟨200, ⟨"hi".data, none⟩⟩ none [200] (some (-1))
        = ⟨none, some (tooLargeMsg (-1)), ⟨1, 1, 0⟩⟩ :=
  ⟨by decide, negative_limit_always_too_large ⟨200, ⟨"hi".data, none⟩⟩ [200] (-1) (by decide)⟩

/-- C4: for every call to `RawBody` with `requestErr` nil whose underlying
body read fails with `e`, the result is nil bytes and exactly the error
`reading response body: <e>`, for every status code — the bounded read and
its error check happen before the status check, so a read failure takes
precedence over a status mismatch. -/
theorem rawBody_read_error_precedence (b : Body) (status : Int) (wants : List Int)
    (readLimit : Option Int) (e : String)
    (herr : b.readErr = some e)
    (hlen : (b.data.length : Int) < maxBytesOf readLimit + 1) :
    RawBody ⟨status, b⟩ none wants readLimit
      = ⟨none, some ("reading response body: " ++ e), ⟨1, 1, 0⟩⟩ :=
  rawBody_eq_read_err ⟨status, b⟩ wants readLimit e herr hlen

/-- Witness for C4: a failing body read with a mismatching status code 999
still reports the read error, not the status mismatch. -/
theorem rawBody_read_error_precedence_witness :
    (⟨"abc".data, some "some read err"⟩ : Body).readErr = some "some read err"
    ∧ (("abc".data.length : Int)) < maxBytesOf none + 1
    ∧ RawBody ⟨999, ⟨"abc".data, some "some read err"⟩⟩ none [200] none
        = ⟨none, some ("reading response body: " ++ "some read err"), ⟨1, 1, 0⟩⟩ :=
  ⟨rfl, by decide,
    rawBody_read_error_precedence ⟨"abc".data, some "some read err"⟩ 999 [200] none
      "some read err" rfl (by decide)⟩

/-- C5: for every call to `JSON` with `requestErr` nil where the status is
not in the expected set and the error-context bounded read fails with `e`,
the returned error is the status-mismatch message followed by
`, also an error occurred when reading the response body: <e>` — the read
failure is appended to, and never replaces, the primary mismatch message. -/
theorem json_mismatch_read_error_appended {α : Type} (resp : Response)
    (wants : List Int) (decode : Body → DecodeOutcome α) (e : String)
    (hmem : contains wants resp.statusCode = false)
    (herr : resp.body.readErr = some e)
    (hlen : (resp.body.data.length : Int) < jsonMaxBytes + 1) :
    JSON resp none wants decode
      = ⟨some (statusErrStr resp.statusCode wants
          ++ (", also an error occurred when reading the response body: " ++ e)),
          none, ⟨1, 1, 0⟩⟩ :=
  json_mismatch_read_err_eq resp wants decode e hmem herr hlen

/-- Witness for C5: status 999 against expected `[200]` with a failing
context read yields the mismatch message with the read error appended. -/
theorem json_mismatch_read_error_appended_witness :
    contains [200] 999 = false
    ∧ (⟨[], some "some read err"⟩ : Body).readErr = some "some read err"
    ∧ ((([] : List Char).length : Int)) < jsonMaxBytes + 1
    ∧ JSON ⟨999, ⟨[], some "some read err"⟩⟩ none [200] trivialDecode
        = ⟨some (statusErrStr 999 [200]
            ++ (", also an error occurred when reading the response body: " ++ "some read err")),
            none, ⟨1, 1, 0⟩⟩ :=
  ⟨by decide, rfl, by decide,
    json_mismatch_read_error_appended ⟨999, ⟨[], some "some read err"⟩⟩ [200] trivialDecode
      "some read err" (by decide) rfl (by decide)⟩

/-- C2: for every observed status code not in the expected set, the error
messages of both `RawBody` (when its read succeeds within the cap) and
`JSON` begin with the status-mismatch fragment, which is
`got status code <g> but wanted <w>` when exactly one status `w` was
expected and `got status code <g> but wanted one of <[...]>` (the set as a
space-separated bracketed list) otherwise. -/
theorem status_mismatch_message_prefix {α : Type} (resp : Response) (wants : List Int)
    (readLimit : Option Int) (decode : Body → DecodeOutcome α)
    (hmem : contains wants resp.statusCode = false)
    (hread : resp.body.readErr = none)
    (hlen : (resp.body.data.length : Int) ≤ maxBytesOf readLimit) :
    (∃ s, (RawBody resp none wants readLimit).err
        = some (statusErrStr resp.statusCode wants ++ s))
    ∧ (∃ s, (JSON resp none wants decode).err
        = some (statusErrStr resp.statusCode wants ++ s))
    ∧ (∀ w, wants = [w] → statusErrStr resp.statusCode wants
        = "got status code " ++ toString resp.statusCode ++ " but wanted " ++ toString w)
    ∧ (1 < wants.length → statusErrStr resp.statusCode wants
        = "got status code " ++ toString resp.statusCode
            ++ " but wanted one of " ++ wantsStr wants) := by
  refine ⟨?_, ?_, ?_, ?_⟩
  · rw [rawBody_eq_of_read_ok resp wants readLimit hread hlen, if_neg (by simp [hmem])]
    exact ⟨_, rfl⟩
  · rw [json_mismatch_eq _ _ decode hmem]
    obtain ⟨s, hs⟩ := jsonMismatchErr_prefix (statusErrStr resp.statusCode wants)
      (limitedReadAll resp.body (jsonMaxBytes + 1))
    exact ⟨s, by rw [show (⟨some (jsonMismatchErr (statusErrStr resp.statusCode wants)
      (limitedReadAll resp.body (jsonMaxBytes + 1))), none, ⟨1, 1, 0⟩⟩
      : JSONResult α).err = some (jsonMismatchErr (statusErrStr resp.statusCode wants)
      (limitedReadAll resp.body (jsonMaxBytes + 1))) from rfl, hs]⟩
  · rintro w rfl
    exact statusErrStr_singleton resp.statusCode w
  · intro h
    exact statusErrStr_plural resp.statusCode wants (by omega)

/-- Witness for C2: status 999 against `[200, 888]` with the body
`woa there`; both operations produce messages starting with
`got status code 999 but wanted one of [200 888]`. -/
theorem status_mismatch_message_prefix_witness :
    contains [200, 888] 999 = false
    ∧ (⟨"woa there".data, none⟩ : Body).readErr = none
    ∧ (("woa there".data.length : Int)) ≤ maxBytesOf none
    ∧ ((∃ s, (RawBody ⟨999, ⟨"woa there".data, none⟩⟩ none [200, 888] none).err
          = some (statusErrStr 999 [200, 888] ++ s))
      ∧ (∃ s, (JSON ⟨999, ⟨"woa there".data, none⟩⟩ none [200, 888] trivialDecode).err
          = some (statusErrStr 999 [200, 888] ++ s))
      ∧ (∀ w : Int, ([200, 888] : List Int) = [w] → statusErrStr 999 [200, 888]
          = "got status code " ++ toString (999 : Int) ++ " but wanted " ++ toString w)
      ∧ (1 < ([200, 888] : List Int).length → statusErrStr 999 [200, 888]
          = "got status code " ++ toString (999 : Int)
              ++ " but wanted one of " ++ wantsStr [200, 888])) :=
  ⟨by decide, rfl, by decide,
    status_mismatch_message_prefix ⟨999, ⟨"woa there".data, none⟩⟩ [200, 888] none
      trivialDecode (by decide) rfl (by decide)⟩

/-- C3: for every call to `RawBody` with `requestErr` nil and a successful
underlying read, with configured limit `L` (explicit or the 30 MiB
default): a body of more than `L` bytes yields nil bytes and the error
naming exactly `L`; a body of at most `L` bytes trips no cap-exceeded
check (`limitedReader.N <= 0` is false) and the full body is captured —
returned on a status match, embedded in the mismatch message otherwise. -/
theorem rawBody_read_limit_behavior (resp : Response) (wants : List Int)
    (readLimit : Option Int) (hread : resp.body.readErr = none) :
    (maxBytesOf readLimit < (resp.body.data.length : Int) →
      RawBody resp none wants readLimit
        = ⟨none, some (tooLargeMsg (maxBytesOf readLimit)), ⟨1, 1, 0⟩⟩)
    ∧ ((resp.body.data.length : Int) ≤ maxBytesOf readLimit →
      ¬ (limitedReadAll resp.body (maxBytesOf readLimit + 1)).remaining ≤ 0
      ∧ RawBody resp none wants readLimit
          = if contains wants resp.statusCode then
              ⟨some resp.body.data, none, ⟨1, 1, 0⟩⟩
            else
              ⟨none, some (statusErrStr resp.statusCode wants
                  ++ (", body: " ++ String.mk resp.body.data)), ⟨1, 1, 0⟩⟩) := by
  constructor
  · intro h
    exact rawBody_eq_too_large resp wants readLimit h
  · intro h
    exact ⟨rawBody_remaining_pos resp readLimit h,
      rawBody_eq_of_read_ok resp wants readLimit hread h⟩

/-- Witness for C3: a 62-byte body against an explicit limit of 19 yields
the too-large error naming 19; a 9-byte body against the default limit is
fully captured and embedded in the mismatch message. -/
theorem rawBody_read_limit_behavior_witness :
    ((⟨"a reeaaaallllly loooooooong responnnnnnssssseeeeee bodyyyyyyyy".data, none⟩
        : Body).readErr = none
      ∧ maxBytesOf (some 19)
          < (("a reeaaaallllly loooooooong responnnnnnssssseeeeee bodyyyyyyyy".data.length : Int))
      ∧ RawBody ⟨400, ⟨"a reeaaaallllly loooooooong responnnnnnssssseeeeee bodyyyyyyyy".data, none⟩⟩
          none [400] (some 19)
          = ⟨none, some (tooLargeMsg (maxBytesOf (some 19))), ⟨1, 1, 0⟩⟩)
    ∧ ((("woa there".data.length : Int)) ≤ maxBytesOf none
      ∧ ¬ (limitedReadAll ⟨"woa there".data, none⟩ (maxBytesOf none + 1)).remaining ≤ 0
      ∧ RawBody ⟨999, ⟨"woa there".data, none⟩⟩ none [200, 888] none
          = ⟨none, some (statusErrStr 999 [200, 888]
              ++ (", body: " ++ String.mk "woa there".data)), ⟨1, 1, 0⟩⟩) := by
  refine ⟨⟨rfl, by decide, (rawBody_read_limit_behavior _ [400] (some 19) rfl).1 (by decide)⟩,
    by decide, ?_, ?_⟩
  · exact ((rawBody_read_limit_behavior ⟨999, ⟨"woa there".data, none⟩⟩ [200, 888] none rfl).2
      (by decide)).1
  · have h := ((rawBody_read_limit_behavior ⟨999, ⟨"woa there".data, none⟩⟩ [200, 888] none rfl).2
      (by decide)).2
    rw [h]
    decide

/-- C8: for every call to `JSON` with `requestErr` nil whose status is not
in the expected set, an error is returned without ever invoking the JSON
decoder (the result is the same for every decoder, zero decode effects)
and the caller's output target is left untouched; likewise `RawBody`
returns nil bytes (and an error) on every path under a status mismatch. -/
theorem mismatch_no_decode_no_output {α : Type} (resp : Response) (wants : List Int)
    (readLimit : Option Int) (d₁ d₂ : Body → DecodeOutcome α)
    (hmem : contains wants resp.statusCode = false) :
    (JSON resp none wants d₁).written = none
    ∧ (JSON resp none wants d₁).effects.decodes = 0
    ∧ (JSON resp none wants d₁).err.isSome = true
    ∧ JSON resp none wants d₁ = JSON resp none wants d₂
    ∧ (RawBody resp none wants readLimit).body = none
    ∧ (RawBody resp none wants readLimit).err.isSome = true := by
  have h1 := json_mismatch_eq resp wants d₁ hmem
  have h2 := json_mismatch_eq resp wants d₂ hmem
  have h3 := rawAfterRead_mismatch resp.statusCode wants (maxBytesOf readLimit)
    (limitedReadAll resp.body (maxBytesOf readLimit + 1)) hmem
  exact ⟨by rw [h1], by rw [h1], by rw [h1]; rfl, by rw [h1, h2],
    by rw [rawBody_none_eq]; exact h3.1, by rw [rawBody_none_eq]; exact h3.2⟩

/-- Witness for C8: status 999 against `[200]`; two decoders that disagree
on every body produce the same mismatch result, with nothing written. -/
theorem mismatch_no_decode_no_output_witness :
    contains [200] 999 = false
    ∧ ((JSON ⟨999, ⟨"woa there".data, none⟩⟩ none [200] trivialDecode).written = none
      ∧ (JSON ⟨999, ⟨"woa there".data, none⟩⟩ none [200] trivialDecode).effects.decodes = 0
      ∧ (JSON ⟨999, ⟨"woa there".data, none⟩⟩ none [200] trivialDecode).err.isSome = true
      ∧ JSON ⟨999, ⟨"woa there".data, none⟩⟩ none [200] trivialDecode
          = JSON ⟨999, ⟨"woa there".data, none⟩⟩ none [200] (fun _ => ⟨some (), some "boom"⟩)
      ∧ (RawBody ⟨999, ⟨"woa there".data, none⟩⟩ none [200] none).body = none
      ∧ (RawBody ⟨999, ⟨"woa there".data, none⟩⟩ none [200] none).err.isSome = true) :=
  ⟨by decide,
    mismatch_no_decode_no_output ⟨999, ⟨"woa there".data, none⟩⟩ [200] none
      trivialDecode (fun _ => ⟨some (), some "boom"⟩) (by decide)⟩

/-- C9: with an empty expected-status list, membership never holds, so for
every response whose read succeeds within the caps both `RawBody` and
`JSON` unconditionally return a status-mismatch error in the plural form
with the empty list rendered as `[]`. -/
theorem empty_wants_always_mismatch {α : Type} (resp : Response) (readLimit : Option Int)
    (decode : Body → DecodeOutcome α)
    (hread : resp.body.readErr = none)
    (hlenR : (resp.body.data.length : Int) ≤ maxBytesOf readLimit)
    (hlenJ : (resp.body.data.length : Int) ≤ jsonMaxBytes) :
    contains [] resp.statusCode = false
    ∧ (RawBody resp none [] readLimit).body = none
    ∧ (RawBody resp none [] readLimit).err
        = some (("got status code " ++ toString resp.statusCode ++ " but wanted one of []")
            ++ (", body: " ++ String.mk resp.body.data))
    ∧ (JSON resp none [] decode).err
        = some (("got status code " ++ toString resp.statusCode ++ " but wanted one of []")
            ++ (", body: " ++ String.mk resp.body.data)) := by
  have hm : contains [] resp.statusCode = false := rfl
  have hR := rawBody_eq_of_read_ok resp [] readLimit hread hlenR
  rw [if_neg (by simp [hm])] at hR
  have hJ := json_mismatch_full_eq resp [] decode hm hread hlenJ
  refine ⟨hm, by rw [hR], ?_, ?_⟩
  · rw [hR]
    simp only [statusErrStr_nil]
  · rw [hJ]
    simp only [statusErrStr_nil]

/-- Witness for C9: status 999 with an empty expected list produces
`got status code 999 but wanted one of []` in both operations. -/
theorem empty_wants_always_mismatch_witness :
    (⟨"woa there".data, none⟩ : Body).readErr = none
    ∧ (("woa there".data.length : Int)) ≤ maxBytesOf none
    ∧ (("woa there".data.length : Int)) ≤ jsonMaxBytes
    ∧ (contains [] 999 = false
      ∧ (RawBody ⟨999, ⟨"woa there".data, none⟩⟩ none [] none).body = none
      ∧ (RawBody ⟨999, ⟨"woa there".data, none⟩⟩ none [] none).err
          = some (("got status code " ++ toString (999 : Int) ++ " but wanted one of []")
              ++ (", body: " ++ String.mk "woa there".data))
      ∧ (JSON ⟨999, ⟨"woa there".data, none⟩⟩ none [] trivialDecode).err
          = some (("got status code " ++ toString (999 : Int) ++ " but wanted one of []")
              ++ (", body: " ++ String.mk "woa there".data))) :=
  ⟨rfl, by decide, by decide,
    empty_wants_always_mismatch ⟨999, ⟨"woa there".data, none⟩⟩ none trivialDecode
      rfl (by decide) (by decide)⟩

/-- C1 (refuted as stated; the code misbehaves here): when `JSON` hits a
status mismatch and the body holds more than 1 MiB, the message does
report the number 1048576, but the text after
`bytes of the response body are: ` is the first `1048577` bytes of the
body — the limited reader's allowance is `jsonMaxBytes + 1`, all of which
is captured and echoed, so the byte beyond the 1048576th appears in the
message even though the message claims to show only the first 1048576. -/
theorem json_context_read_includes_cap_exceeding_byte {α : Type} (resp : Response)
    (wants : List Int) (decode : Body → DecodeOutcome α)
    (hmem : contains wants resp.statusCode = false)
    (hlen : jsonMaxBytes < (resp.body.data.length : Int)) :
    (JSON resp none wants decode).err
      = some (statusErrStr resp.statusCode wants
          ++ (", the first " ++ (toString jsonMaxBytes
          ++ (" bytes of the response body are: "
          ++ String.mk (resp.body.data.take (jsonMaxBytes + 1).toNat)))))
    ∧ toString jsonMaxBytes = "1048576"
    ∧ (resp.body.data.take (jsonMaxBytes + 1).toNat).length = 1048577 := by
  refine ⟨?_, by decide, ?_⟩
  · rw [json_mismatch_capped_eq resp wants decode hmem hlen]
  · have h1 : (jsonMaxBytes + 1).toNat = 1048577 := by decide
    have h2 : jsonMaxBytes = (1048576 : Int) := by decide
    rw [h1, List.length_take]
    omega

/-- Witness for C1's refutation: status 999 against `[200]` with a body of
1048577 `z` bytes; the error message embeds all 1048577 captured bytes. -/
theorem json_context_read_includes_cap_exceeding_byte_witness :
    contains [200] 999 = false
    ∧ jsonMaxBytes < ((List.replicate 1048577 'z').length : Int)
    ∧ ((JSON ⟨999, ⟨List.replicate 1048577 'z', none⟩⟩ none [200] trivialDecode).err
        = some (statusErrStr 999 [200]
            ++ (", the first " ++ (toString jsonMaxBytes
            ++ (" bytes of the response body are: "
            ++ String.mk ((List.replicate 1048577 'z').take (jsonMaxBytes + 1).toNat)))))
      ∧ toString jsonMaxBytes = "1048576"
      ∧ ((List.replicate 1048577 'z').take (jsonMaxBytes + 1).toNat).length = 1048577) := by
  have hlen : jsonMaxBytes < ((List.replicate 1048577 'z').length : Int) := by
    rw [List.length_replicate]
    decide
  exact ⟨by decide, hlen,
    json_context_read_includes_cap_exceeding_byte ⟨999, ⟨List.replicate 1048577 'z', none⟩⟩
      [200] trivialDecode (by decide) hlen⟩

end Httpparse
